import Mathlib

/-!
Verification of the crawl engine of `404.py` (Beluki/404), a multithreaded
dead-link crawler.

Shallow embedding notes.

* `LinkTask.run` (source lines 148-187) is embedded as `linkTaskRun`.  The
  HTTP client (`requests.get`) is an external collaborator; its outcome for a
  given URL is a parameter `web : String → HttpResult`.  Its three observable
  outcomes are a timeout exception, another network exception, or a response
  carrying a status code, a content-type header and a parsed body.  The parsed
  body is modelled as the lists of `<a>` tags (with their optional `href`
  attribute) and `<img>` tags (with their optional `src` attribute) that
  BeautifulSoup would produce; `soup.find_all('a', href = True)` keeps exactly
  the anchors that have an href, while `soup.find_all('img')` keeps all image
  tags and `tag['src']` raises `KeyError` on an image without a `src`.
  `urllib.parse.urljoin` is likewise kept abstract as a parameter
  `uj : String → String → String`.
  The Python `run` method catches every exception with a bare `except:` and
  stores it in `self.exception`; correspondingly the embedding is a total
  function whose failures appear in the `exception` field of the resulting
  `TaskState` — no exception escapes.

* `urllib.parse.urldefrag` / `urlparse().scheme` / `urlparse().netloc` are
  embedded concretely (`urldefrag`, `urlScheme`, `urlNetloc`) following
  CPython's `urlsplit` for absolute URLs: the fragment is everything from the
  first `#` on; a scheme is a leading alphabetic-then-scheme-chars run before
  a `:` (lowercased); the netloc is the run after `//` up to the next `/`,
  `?` or `#`.

* The driver `run` (source lines 275-355) together with the thread pool is
  embedded as a small-step transition relation `Step` on `DState`: a step
  drains one of the in-flight tasks (completion order is arbitrary, which
  models the arbitrary interleaving of the worker threads), executes it via
  `linkTaskRun`, and then performs exactly the body of the Python driver loop
  (error reporting, status-line output, and the per-link admission logic with
  the `link_cache` seen-set).  `Reach` is the set of states reachable from the
  initial state (seed task submitted, seed URL pre-seeded into the cache).
  The pool's `pending_tasks` counter is the number of submitted-but-not-yet
  drained tasks, i.e. `inflight.length` here; `submitted` records every task
  ever passed to `add_task` and `processed` every task drained by the loop.
  The statistics counters and the `--quiet`, `--newline`, `--threads`,
  `--timeout` and `--no-redirects` options do not affect any claim: the last
  three only parametrise the external HTTP collaborator, which is already
  abstracted by `web`.
-/

namespace FourOhFour

/-- The parsed body of an HTML response: anchor tags with their optional
`href` attribute and image tags with their optional `src` attribute. -/
structure Response where
  status : Nat
  contentType : String
  anchors : List (Option String)
  imgs : List (Option String)
deriving DecidableEq

/-- Outcome of the external HTTP collaborator (`requests.get`) for one URL. -/
inductive HttpResult where
  | timeout
  | netError (msg : String)
  | ok (resp : Response)
deriving DecidableEq

/-- The exception captured by a task's bare `except:` clause:
`requests.Timeout`, any other network error, or the `KeyError` raised by
`tag['src']` on an `<img>` without a `src` attribute. -/
inductive TaskExc where
  | timeout
  | error (msg : String)
  | keyError
deriving DecidableEq

/-- The fields of a `LinkTask` after `run()` has returned:
`self.status`, `self.links`, `self.exception`. -/
structure TaskState where
  status : Option Nat
  links : List String
  exception : Option TaskExc
deriving DecidableEq

/-- ASCII whitespace as stripped by Python's `str.strip()`. -/
def isStripped (c : Char) : Bool :=
  c == ' ' || c == '\t' || c == '\n' || c == '\r' || c == '\x0b' || c == '\x0c'

/-- `str.strip()` on a character list: drop whitespace from both ends. -/
def stripChars (l : List Char) : List Char :=
  ((l.dropWhile isStripped).reverse.dropWhile isStripped).reverse

/-- `content_type.strip().startswith(('text/html', 'application/xhtml+xml'))`. -/
def isFollowableContentType (ct : String) : Bool :=
  ("text/html".data.isPrefixOf (stripChars ct.data))
    || ("application/xhtml+xml".data.isPrefixOf (stripChars ct.data))

/-- The `<img>` loop of `LinkTask.run`: append `urljoin(self.link, tag['src'])`
for each image tag in order; an image without `src` raises `KeyError`, which
aborts the loop keeping the links appended so far.  Returns the collected
links and whether the `KeyError` was raised. -/
def collectImgSrcs (uj : String → String → String) (base : String) :
    List (Option String) → List String × Bool
  | [] => ([], false)
  | none :: _ => ([], true)
  | some s :: rest =>
      (uj base s :: (collectImgSrcs uj base rest).1, (collectImgSrcs uj base rest).2)

/-- `LinkTask.run` (source lines 148-187).  Totality of this function models
the bare `except:`: every failure is captured in the `exception` field and
none escapes. -/
def linkTaskRun (uj : String → String → String) (link : String)
    (get_links : Bool) (http : HttpResult) : TaskState :=
  match http with
  | .timeout => ⟨none, [], some .timeout⟩
  | .netError m => ⟨none, [], some (.error m)⟩
  | .ok resp =>
      if get_links = false then ⟨some resp.status, [], none⟩
      else if 400 ≤ resp.status then ⟨some resp.status, [], none⟩
      else if isFollowableContentType resp.contentType = false then
        ⟨some resp.status, [], none⟩
      else
        ⟨some resp.status,
         (resp.anchors.filterMap id).map (uj link) ++ (collectImgSrcs uj link resp.imgs).1,
         if (collectImgSrcs uj link resp.imgs).2 then some .keyError else none⟩

/-- `urllib.parse.urldefrag(link)[0]`: everything before the first `#`. -/
def urldefrag (s : String) : String :=
  String.mk (s.data.takeWhile (fun c => c != '#'))

/-- Characters allowed in a URL scheme after the initial letter. -/
def isSchemeChar (c : Char) : Bool :=
  c.isAlphanum || c == '+' || c == '-' || c == '.'

/-- `urllib.parse.urlparse(s).scheme`: the lowercased run before the first
`:` when it is non-empty, starts with a letter and consists of scheme
characters; otherwise the empty string. -/
def urlScheme (s : String) : String :=
  let pre := s.data.takeWhile (fun c => c != ':')
  if pre.length < s.data.length ∧ pre ≠ [] ∧ pre.all isSchemeChar
      ∧ (pre.headD ' ').isAlpha then
    String.mk (pre.map Char.toLower)
  else ""

/-- `urllib.parse.urlparse(s).netloc`: after removing any scheme prefix, the
run following `//` up to the next `/`, `?` or `#` (empty when the remainder
does not start with `//`). -/
def urlNetloc (s : String) : String :=
  let rest := if urlScheme s = "" then s.data
              else (s.data.dropWhile (fun c => c != ':')).drop 1
  match rest with
  | '/' :: '/' :: r =>
      String.mk (r.takeWhile (fun c => c != '/' && c != '?' && c != '#'))
  | _ => ""

/-- A `LinkTask` as constructed by the driver: its URL and its
`get_links` flag. -/
structure Task where
  link : String
  get_links : Bool
deriving DecidableEq

/-- The run-relevant configuration of `run(...)`. -/
structure Params where
  url : String
  internal : String
  external : String
  print_all : Bool
deriving DecidableEq

/-- The driver state: `link_cache` (as a duplicate-free list), the tasks
submitted to the pool but not yet drained (`pending_tasks` is their number),
every task ever submitted via `add_task`, every task drained by the loop, the
exit status variable, and the stdout / stderr lines written so far. -/
structure DState where
  cache : List String
  inflight : List Task
  submitted : List Task
  processed : List Task
  exitStatus : Nat
  outLines : List String
  errLines : List String
deriving DecidableEq

/-- The result of executing one task against the abstract web. -/
def taskResult (web : String → HttpResult) (uj : String → String → String)
    (t : Task) : TaskState :=
  linkTaskRun uj t.link t.get_links (web t.link)

/-- The stderr line of the failure branch of the driver:
`'{} - timeout.'` for a `Timeout`, `'{} - {}.'` otherwise
(a Python `KeyError('src')` prints as `'src'`). -/
def errLine (link : String) (e : TaskExc) : String :=
  match e with
  | .timeout => link ++ " - timeout."
  | .error m => link ++ " - " ++ m ++ "."
  | .keyError => link ++ " - " ++ "'src'" ++ "."

/-- The stdout line `'{}: {}'.format(task.status, task.link)`. -/
def outLine (status : Nat) (link : String) : String :=
  toString status ++ ": " ++ link

/-- The body of `for link in task.links` in the driver (source lines
318-347): strip the fragment, skip if cached, otherwise cache it, then drop
non-http(s) schemes, drop external links under the ignore policy, and submit
a new task whose `get_links` flag is decided by the matching policy. -/
def processLink (P : Params) (netloc0 : String) (s : DState) (link0 : String) :
    DState :=
  let link := urldefrag link0
  if link ∈ s.cache then s
  else
    let s1 : DState := { s with cache := link :: s.cache }
    if ¬(urlScheme link = "http" ∨ urlScheme link = "https") then s1
    else if ¬(urlNetloc link = netloc0) ∧ P.external = "ignore" then s1
    else
      let g : Bool := if urlNetloc link = netloc0 then P.internal == "follow"
                      else P.external == "follow"
      { s1 with submitted := s1.submitted ++ [⟨link, g⟩],
                inflight := s1.inflight ++ [⟨link, g⟩] }

/-- The body of the driver loop for one drained task (source lines 299-347):
report a captured exception on stderr and set the exit status, or emit the
status line when requested and admit each discovered link. -/
def processTask (web : String → HttpResult) (uj : String → String → String)
    (P : Params) (netloc0 : String) (s : DState) (t : Task) : DState :=
  let r := taskResult web uj t
  match r.exception with
  | some e =>
      { s with processed := s.processed ++ [t],
               exitStatus := 1,
               errLines := s.errLines ++ [errLine t.link e] }
  | none =>
      let s1 : DState :=
        if P.print_all ∨ 400 ≤ r.status.getD 0 then
          { s with processed := s.processed ++ [t],
                   outLines := s.outLines ++ [outLine (r.status.getD 0) t.link] }
        else { s with processed := s.processed ++ [t] }
      r.links.foldl (processLink P netloc0) s1

/-- The seed task `LinkTask(url, True, timeout, allow_redirects)`. -/
def seedTask (P : Params) : Task := ⟨P.url, true⟩

/-- The driver state just before the loop: seed task submitted,
`link_cache = set([url])`. -/
def initState (P : Params) : DState :=
  { cache := [P.url]
    inflight := [seedTask P]
    submitted := [seedTask P]
    processed := []
    exitStatus := 0
    outLines := []
    errLines := [] }

/-- One iteration of the driver loop: some in-flight task completes (workers
finish in arbitrary order) and is drained and handled. -/
inductive Step (web : String → HttpResult) (uj : String → String → String)
    (P : Params) : DState → DState → Prop
  | drain (s : DState) (t : Task) (h : t ∈ s.inflight) :
      Step web uj P s
        (processTask web uj P (urlNetloc P.url)
          { s with inflight := s.inflight.erase t } t)

/-- Driver states reachable from the initial state. -/
inductive Reach (web : String → HttpResult) (uj : String → String → String)
    (P : Params) : DState → Prop
  | init : Reach web uj P (initState P)
  | step {s s' : DState} : Reach web uj P s → Step web uj P s s' →
      Reach web uj P s'

/-- The `get_links` flag computed by the driver for an admitted link. -/
def newG (P : Params) (netloc0 link : String) : Bool :=
  if urlNetloc link = netloc0 then P.internal == "follow"
  else P.external == "follow"

/-- Whether a captured exception is a network failure (timeout or other
request error), as opposed to a parse-time failure. -/
def isNetFailureB : Option TaskExc → Bool
  | some .timeout => true
  | some (.error _) => true
  | _ => false

/-- The link collection described by the spec sentence: every anchor href
target and every image src target, resolved against the task's own URL. -/
def specExtractedLinks (uj : String → String → String) (link : String)
    (resp : Response) : List String :=
  (resp.anchors.filterMap id).map (uj link)
    ++ (resp.imgs.filterMap id).map (uj link)

/-- A trivial URL-resolution collaborator for concrete runs: every discovered
reference is already absolute. -/
def uj0 : String → String → String := fun _ l => l

/-- The state after the driver drains the seed task. -/
def drainSeed (web : String → HttpResult) (uj : String → String → String)
    (P : Params) : DState :=
  processTask web uj P (urlNetloc P.url)
    { initState P with inflight := (initState P).inflight.erase (seedTask P) }
    (seedTask P)

/-- Concrete run for C1: the seed URL carries a fragment and its page links
to the fragment-free form of the same URL. -/
def P1 : Params := ⟨"http://a/#f", "check", "check", false⟩

/-- Web for the C1 run: the seed page is HTML with one anchor. -/
def web1 : String → HttpResult := fun u =>
  if u = "http://a/#f" then .ok ⟨200, "text/html", [some "http://a/"], []⟩
  else .ok ⟨200, "", [], []⟩

/-- Concrete run for C2: internal policy check, external policy ignore, and
the seed page links to an internal page. -/
def P2 : Params := ⟨"http://a/", "check", "ignore", false⟩

/-- Web for the C2 run. -/
def web2 : String → HttpResult := fun u =>
  if u = "http://a/" then .ok ⟨200, "text/html", [some "http://a/b"], []⟩
  else .ok ⟨200, "", [], []⟩

/-- Concrete run for C7 and C10: the seed page is HTML whose only image tag
has no `src` attribute; no network failure occurs anywhere. -/
def P7 : Params := ⟨"http://a/", "check", "check", false⟩

/-- Web for the C7 run. -/
def web7 : String → HttpResult := fun _ => .ok ⟨200, "text/html", [], [none]⟩

/-- Concrete run for C9: the seed URL cannot be fetched at all. -/
def P9 : Params := ⟨"http://a/", "check", "check", false⟩

/-- Web for the C9 run. -/
def web9 : String → HttpResult := fun _ => .netError "connection refused"

/-- Concrete run for C6: the seed page returns a plain 404. -/
def P6 : Params := ⟨"http://a/", "check", "check", false⟩

/-- Web for the C6 run. -/
def web6 : String → HttpResult := fun _ => .ok ⟨404, "text/html", [], []⟩

/-! Helper lemmas. -/

/-- A predicate preserved by each folding step is preserved by `foldl`. -/
theorem foldl_inv {α β : Type _} {f : β → α → β} {I : β → Prop}
    (h : ∀ b a, I b → I (f b a)) : ∀ (l : List α) (b : β), I b → I (l.foldl f b)
  | [], _, hb => hb
  | a :: l, b, hb => foldl_inv h l (f b a) (h b a hb)

/-- A predicate that holds initially and is preserved by every step holds in
every reachable state. -/
theorem reach_inv {web : String → HttpResult} {uj : String → String → String}
    {P : Params} {I : DState → Prop} (hinit : I (initState P))
    (hstep : ∀ s s', Step web uj P s s' → I s → I s') :
    ∀ {s : DState}, Reach web uj P s → I s := by
  intro s h
  induction h with
  | init => exact hinit
  | step _ hst ih => exact hstep _ _ hst ih

/-- `takeWhile` is idempotent. -/
theorem takeWhile_same {α : Type _} (p : α → Bool) :
    ∀ l : List α, (l.takeWhile p).takeWhile p = l.takeWhile p := by
  intro l
  induction l with
  | nil => rfl
  | cons a l ih =>
      by_cases h : p a = true <;> simp [List.takeWhile_cons, h, ih]

/-- Stripping the fragment is idempotent. -/
theorem urldefrag_idem (s : String) : urldefrag (urldefrag s) = urldefrag s := by
  unfold urldefrag
  rw [takeWhile_same]

/-- Case analysis on one admission step of the driver: the link is already
cached (no change), admitted to the cache but rejected by the scheme or
external-ignore filters, or admitted with a new task submitted. -/
theorem processLink_spec (P : Params) (n : String) (s : DState) (l : String) :
    (urldefrag l ∈ s.cache ∧ processLink P n s l = s)
  ∨ (urldefrag l ∉ s.cache
      ∧ processLink P n s l = { s with cache := urldefrag l :: s.cache })
  ∨ (urldefrag l ∉ s.cache
      ∧ (urlScheme (urldefrag l) = "http" ∨ urlScheme (urldefrag l) = "https")
      ∧ ¬(¬(urlNetloc (urldefrag l) = n) ∧ P.external = "ignore")
      ∧ processLink P n s l =
          { s with cache := urldefrag l :: s.cache,
                   submitted := s.submitted ++ [⟨urldefrag l, newG P n (urldefrag l)⟩],
                   inflight := s.inflight ++ [⟨urldefrag l, newG P n (urldefrag l)⟩] }) := by
  by_cases h1 : urldefrag l ∈ s.cache
  · exact Or.inl ⟨h1, by simp [processLink, h1]⟩
  by_cases h2 : urlScheme (urldefrag l) = "http" ∨ urlScheme (urldefrag l) = "https"
  · by_cases h3 : ¬(urlNetloc (urldefrag l) = n) ∧ P.external = "ignore"
    · refine Or.inr (Or.inl ⟨h1, ?_⟩)
      simp [processLink, h1, h2, h3]
    · refine Or.inr (Or.inr ⟨h1, h2, h3, ?_⟩)
      simp [processLink, newG, h1, h2, h3]
  · refine Or.inr (Or.inl ⟨h1, ?_⟩)
    simp [processLink, h1, h2]

/-- The exception branch of the driver loop body. -/
theorem processTask_exc {web : String → HttpResult} {uj : String → String → String}
    {P : Params} {n : String} {s : DState} {t : Task} {e : TaskExc}
    (hE : (taskResult web uj t).exception = some e) :
    processTask web uj P n s t =
      { s with processed := s.processed ++ [t],
               exitStatus := 1,
               errLines := s.errLines ++ [errLine t.link e] } := by
  simp only [processTask]
  rw [hE]

/-- The success branch of the driver loop body. -/
theorem processTask_ok {web : String → HttpResult} {uj : String → String → String}
    {P : Params} {n : String} {s : DState} {t : Task}
    (hE : (taskResult web uj t).exception = none) :
    processTask web uj P n s t =
      (taskResult web uj t).links.foldl (processLink P n)
        (if P.print_all ∨ 400 ≤ (taskResult web uj t).status.getD 0 then
          { s with processed := s.processed ++ [t],
                   outLines := s.outLines
                     ++ [outLine ((taskResult web uj t).status.getD 0) t.link] }
         else { s with processed := s.processed ++ [t] }) := by
  simp only [processTask]
  rw [hE]

/-- A task with link extraction disabled produces no links. -/
theorem linkTaskRun_not_get_links (uj : String → String → String) (l : String)
    (h : HttpResult) : (linkTaskRun uj l false h).links = [] := by
  cases h <;> simp [linkTaskRun]

/-- The image loop raises `KeyError` exactly when some image has no `src`. -/
theorem collectImgSrcs_snd (uj : String → String → String) (b : String) :
    ∀ l : List (Option String), (collectImgSrcs uj b l).2 = true ↔ none ∈ l := by
  intro l
  induction l with
  | nil => simp [collectImgSrcs]
  | cons o l ih => cases o <;> simp [collectImgSrcs, ih]

/-- When every image has a `src`, the image loop collects them all. -/
theorem collectImgSrcs_all_some (uj : String → String → String) (b : String) :
    ∀ l : List (Option String), none ∉ l →
      collectImgSrcs uj b l = ((l.filterMap id).map (uj b), false) := by
  intro l
  induction l with
  | nil => simp [collectImgSrcs]
  | cons o l ih =>
      intro h
      cases o with
      | none => simp at h
      | some s =>
          simp only [List.mem_cons] at h
          push_neg at h
          simp [collectImgSrcs, ih h.2]

/-! C4: pending count and termination of `poll_completed_tasks`. -/

/-- Each admission step adds a task to `submitted` and `inflight` together or
to neither, so it preserves the count balance. -/
theorem processLink_counts {P : Params} {n : String} {b : DState} {a : String}
    (hb : b.submitted.length = b.processed.length + b.inflight.length) :
    (processLink P n b a).submitted.length
      = (processLink P n b a).processed.length
        + (processLink P n b a).inflight.length := by
  rcases processLink_spec P n b a with ⟨_, he⟩ | ⟨_, he⟩ | ⟨_, _, _, he⟩
  all_goals rw [he]
  all_goals try simp only [List.length_append, List.length_cons, List.length_nil]
  all_goals omega

/-- Handling one drained task restores the count balance. -/
theorem processTask_counts {web : String → HttpResult}
    {uj : String → String → String} {P : Params} {n : String} {s : DState}
    {t : Task}
    (h : s.submitted.length = s.processed.length + 1 + s.inflight.length) :
    (processTask web uj P n s t).submitted.length
      = (processTask web uj P n s t).processed.length
        + (processTask web uj P n s t).inflight.length := by
  cases hE : (taskResult web uj t).exception with
  | some e =>
      rw [processTask_exc hE]
      simp only [List.length_append, List.length_cons, List.length_nil]
      omega
  | none =>
      rw [processTask_ok hE]
      refine foldl_inv
        (I := fun st : DState =>
          st.submitted.length = st.processed.length + st.inflight.length)
        (fun b a hb => processLink_counts hb) _ _ ?_
      split_ifs <;>
        simp only [List.length_append, List.length_cons, List.length_nil] <;>
        omega

/-- Every step of the driver preserves the count balance. -/
theorem step_counts {web : String → HttpResult} {uj : String → String → String}
    {P : Params} {s s' : DState} (hst : Step web uj P s s')
    (h : s.submitted.length = s.processed.length + s.inflight.length) :
    s'.submitted.length = s'.processed.length + s'.inflight.length := by
  cases hst with
  | drain t ht =>
      have h1 : (s.inflight.erase t).length = s.inflight.length - 1 :=
        List.length_erase_of_mem ht
      have h2 : 0 < s.inflight.length := List.length_pos_of_mem ht
      exact processTask_counts (by simp only [h1]; omega)

/-- C4: at every reachable point, the pool's pending count (the number of
in-flight tasks) equals the number of tasks ever submitted via `add_task`
minus the number drained by the driver, and the `poll_completed_tasks`
iteration terminates (no in-flight task remains) exactly when the number of
drained tasks equals the number ever submitted — also when tasks were added
mid-iteration. -/
theorem c4_pending_count_invariant {web : String → HttpResult}
    {uj : String → String → String} {P : Params} {s : DState}
    (h : Reach web uj P s) :
    s.inflight.length = s.submitted.length - s.processed.length
  ∧ (s.inflight = [] ↔ s.processed.length = s.submitted.length) := by
  have key : s.submitted.length = s.processed.length + s.inflight.length :=
    reach_inv (by simp [initState]) (fun _ _ hst hi => step_counts hst hi) h
  refine ⟨by omega, ?_, ?_⟩
  · intro he
    rw [he] at key
    simp at key
    omega
  · intro he
    rw [he] at key
    have : s.inflight.length = 0 := by omega
    exact List.length_eq_zero.mp this

/-- Witness for C4 at a concrete reachable state. -/
theorem c4_pending_count_invariant_witness :
    (initState P2).inflight.length
        = (initState P2).submitted.length - (initState P2).processed.length
  ∧ ((initState P2).inflight = []
        ↔ (initState P2).processed.length = (initState P2).submitted.length) :=
  c4_pending_count_invariant (Reach.init : Reach web2 uj0 P2 (initState P2))

/-! C1: at-most-once visitation. -/

/-- The seed task is reachable from the initial state in one driver step. -/
theorem reach_drainSeed (web : String → HttpResult)
    (uj : String → String → String) (P : Params) :
    Reach web uj P (drainSeed web uj P) :=
  Reach.step Reach.init
    (Step.drain (initState P) (seedTask P) (by simp [initState]))

/-- Admission preserves the frontier invariant: every submitted task's URL is
cached, submitted URLs are pairwise distinct, the cache is duplicate-free,
and every non-seed task URL is fragment-stripped. -/
theorem processLink_frontier {P : Params} {n : String} (b : DState) (a : String)
    (hb : (∀ t ∈ b.submitted, t.link ∈ b.cache)
        ∧ (b.submitted.map Task.link).Nodup
        ∧ b.cache.Nodup
        ∧ ∃ rest, b.submitted = seedTask P :: rest
            ∧ ∀ t ∈ rest, urldefrag t.link = t.link) :
    (∀ t ∈ (processLink P n b a).submitted, t.link ∈ (processLink P n b a).cache)
  ∧ ((processLink P n b a).submitted.map Task.link).Nodup
  ∧ (processLink P n b a).cache.Nodup
  ∧ ∃ rest, (processLink P n b a).submitted = seedTask P :: rest
      ∧ ∀ t ∈ rest, urldefrag t.link = t.link := by
  obtain ⟨h1, h2, h3, rest, hr, hrest⟩ := hb
  rcases processLink_spec P n b a with ⟨hc, he⟩ | ⟨hc, he⟩ | ⟨hc, _, _, he⟩
  · rw [he]
    exact ⟨h1, h2, h3, rest, hr, hrest⟩
  · rw [he]
    refine ⟨fun t ht => List.mem_cons_of_mem _ (h1 t ht), h2,
      List.nodup_cons.mpr ⟨hc, h3⟩, rest, hr, hrest⟩
  · rw [he]
    have hnew : urldefrag a ∉ b.submitted.map Task.link := by
      intro hmem
      obtain ⟨t, ht, hl⟩ := List.mem_map.mp hmem
      exact hc (hl ▸ h1 t ht)
    refine ⟨?_, ?_, List.nodup_cons.mpr ⟨hc, h3⟩,
      rest ++ [⟨urldefrag a, newG P n (urldefrag a)⟩], ?_, ?_⟩
    · intro t ht
      rcases List.mem_append.mp ht with h | h
      · exact List.mem_cons_of_mem _ (h1 t h)
      · simp only [List.mem_singleton] at h
        rw [h]
        exact List.mem_cons_self _ _
    · rw [List.map_append]
      refine List.Nodup.append h2 (List.nodup_singleton _) ?_
      intro x hx hx'
      simp only [List.map_cons, List.map_nil, List.mem_singleton] at hx'
      rw [hx'] at hx
      exact hnew hx
    · rw [hr]
      rfl
    · intro t ht
      rcases List.mem_append.mp ht with h | h
      · exact hrest t h
      · simp only [List.mem_singleton] at h
        rw [h]
        exact urldefrag_idem a

/-- The frontier invariant holds in every reachable driver state. -/
theorem reach_frontier {web : String → HttpResult}
    {uj : String → String → String} {P : Params} {s : DState}
    (h : Reach web uj P s) :
    (∀ t ∈ s.submitted, t.link ∈ s.cache)
  ∧ (s.submitted.map Task.link).Nodup
  ∧ s.cache.Nodup
  ∧ ∃ rest, s.submitted = seedTask P :: rest
      ∧ ∀ t ∈ rest, urldefrag t.link = t.link := by
  refine reach_inv (I := fun s : DState =>
      (∀ t ∈ s.submitted, t.link ∈ s.cache)
    ∧ (s.submitted.map Task.link).Nodup
    ∧ s.cache.Nodup
    ∧ ∃ rest, s.submitted = seedTask P :: rest
        ∧ ∀ t ∈ rest, urldefrag t.link = t.link) ?_ ?_ h
  · refine ⟨?_, ?_, ?_, [], ?_, ?_⟩ <;> simp [initState, seedTask]
  · intro s s' hst hi
    cases hst with
    | drain t ht =>
        cases hE : (taskResult web uj t).exception with
        | some e =>
            rw [processTask_exc hE]
            exact hi
        | none =>
            rw [processTask_ok hE]
            refine foldl_inv (fun b a hb => processLink_frontier b a hb) _ _ ?_
            split_ifs <;> exact hi

/-- C1 (amended): the engine issues at most one Task per exact URL; every
non-seed task URL is fragment-stripped, so among discovered links at most one
Task is issued per canonical URL; and whenever the seed URL itself carries no
fragment, at most one Task is issued per canonical URL overall.  (The seed is
cached verbatim, not fragment-stripped, so a fragment-bearing seed may
coexist with one task for its stripped form — see the counterexample.) -/
theorem c1_at_most_once_amended {web : String → HttpResult}
    {uj : String → String → String} {P : Params} {s : DState}
    (h : Reach web uj P s) :
    (s.submitted.map Task.link).Nodup
  ∧ (∀ t ∈ s.submitted.tail, urldefrag t.link = t.link)
  ∧ (s.submitted.tail.map (fun t => urldefrag t.link)).Nodup
  ∧ (urldefrag P.url = P.url →
      (s.submitted.map (fun t => urldefrag t.link)).Nodup) := by
  obtain ⟨_, k2, _, rest, hr, hrest⟩ := reach_frontier h
  have hmap : rest.map (fun t => urldefrag t.link) = rest.map Task.link :=
    List.map_congr_left hrest
  refine ⟨k2, ?_, ?_, ?_⟩
  · rw [hr]
    exact hrest
  · rw [hr, List.tail_cons, hmap]
    rw [hr, List.map_cons] at k2
    exact k2.of_cons
  · intro hseed
    rw [hr, List.map_cons, hmap]
    rw [hr, List.map_cons] at k2
    have : urldefrag (seedTask P).link = (seedTask P).link := hseed
    rw [this]
    exact k2

/-- C1 counterexample: with seed URL `http://a/#f` whose page links to
`http://a/`, the engine issues two tasks whose canonical (fragment-stripped)
URLs coincide — the claim "at most one Task per canonical URL" fails for a
fragment-bearing seed, because the seed enters the seen-set verbatim. -/
theorem c1_at_most_once_counterexample :
    ∃ s : DState, Reach web1 uj0 P1 s
      ∧ ¬ (s.submitted.map (fun t => urldefrag t.link)).Nodup :=
  ⟨drainSeed web1 uj0 P1, reach_drainSeed web1 uj0 P1, by decide⟩

/-- Witness for C1 (amended) at a concrete reachable state with a
fragment-free seed. -/
theorem c1_at_most_once_amended_witness :
    ((drainSeed web2 uj0 P2).submitted.map Task.link).Nodup
  ∧ (∀ t ∈ (drainSeed web2 uj0 P2).submitted.tail, urldefrag t.link = t.link)
  ∧ ((drainSeed web2 uj0 P2).submitted.tail.map
      (fun t => urldefrag t.link)).Nodup
  ∧ (urldefrag P2.url = P2.url →
      ((drainSeed web2 uj0 P2).submitted.map (fun t => urldefrag t.link)).Nodup) :=
  c1_at_most_once_amended (reach_drainSeed web2 uj0 P2)

/-! C2: task set under internal=check / external=ignore. -/

/-- Under internal=check / external=ignore, every task admitted by the driver
is an internal link with extraction disabled. -/
theorem processLink_check_ignore {P : Params} {n : String}
    (hI : P.internal = "check") (hE : P.external = "ignore")
    (b : DState) (a : String)
    (hb : ∀ t ∈ b.submitted, t = seedTask P
        ∨ (t.get_links = false ∧ urlNetloc t.link = n)) :
    ∀ t ∈ (processLink P n b a).submitted, t = seedTask P
        ∨ (t.get_links = false ∧ urlNetloc t.link = n) := by
  rcases processLink_spec P n b a with ⟨_, he⟩ | ⟨_, he⟩ | ⟨_, _, hpol, he⟩
  · rw [he]; exact hb
  · rw [he]; exact hb
  · rw [he]
    intro t ht
    rcases List.mem_append.mp ht with h | h
    · exact hb t h
    · simp only [List.mem_singleton] at h
      have hnet : urlNetloc (urldefrag a) = n := by
        by_contra hx
        exact hpol ⟨hx, hE⟩
      right
      rw [h]
      refine ⟨?_, hnet⟩
      simp [newG, hnet, hI]

/-- C2 (amended): under internal=check and external=ignore, the task set is
the seed task plus check-only tasks for internal links: every non-seed task
ever submitted targets a URL on the seed's network location and has link
extraction disabled — and a task with extraction disabled discovers no links,
so only the seed page contributes discovered links.  (The original claim —
that no task at all is created for discovered links — fails: see the
counterexample.) -/
theorem c2_policy_check_ignore_amended {web : String → HttpResult}
    {uj : String → String → String} {P : Params} {s : DState}
    (hI : P.internal = "check") (hE : P.external = "ignore")
    (h : Reach web uj P s) :
    (∀ t ∈ s.submitted, t = seedTask P
        ∨ (t.get_links = false ∧ urlNetloc t.link = urlNetloc P.url))
  ∧ (∀ t : Task, t.get_links = false → (taskResult web uj t).links = []) := by
  refine ⟨?_, ?_⟩
  · refine reach_inv (I := fun s : DState =>
        ∀ t ∈ s.submitted, t = seedTask P
          ∨ (t.get_links = false ∧ urlNetloc t.link = urlNetloc P.url)) ?_ ?_ h
    · intro t ht
      simp only [initState, List.mem_singleton] at ht
      exact Or.inl ht
    · intro s s' hst hi
      cases hst with
      | drain t ht =>
          cases hX : (taskResult web uj t).exception with
          | some e =>
              rw [processTask_exc hX]
              exact hi
          | none =>
              rw [processTask_ok hX]
              refine foldl_inv
                (fun b a hb => processLink_check_ignore hI hE b a hb) _ _ ?_
              split_ifs <;> exact hi
  · intro t hg
    rw [taskResult, hg]
    exact linkTaskRun_not_get_links uj t.link (web t.link)

/-- C2 counterexample: with internal=check / external=ignore and a seed page
linking to the internal page `http://a/b`, a second task is submitted — the
task set is not exactly the single seed task. -/
theorem c2_policy_check_ignore_counterexample :
    P2.internal = "check" ∧ P2.external = "ignore"
  ∧ ∃ s : DState, Reach web2 uj0 P2 s ∧ s.submitted ≠ [seedTask P2] :=
  ⟨rfl, rfl, drainSeed web2 uj0 P2, reach_drainSeed web2 uj0 P2, by decide⟩

/-- Witness for C2 (amended) at a concrete reachable state. -/
theorem c2_policy_check_ignore_amended_witness :
    (∀ t ∈ (drainSeed web2 uj0 P2).submitted, t = seedTask P2
        ∨ (t.get_links = false ∧ urlNetloc t.link = urlNetloc P2.url))
  ∧ (∀ t : Task, t.get_links = false → (taskResult web2 uj0 t).links = []) :=
  c2_policy_check_ignore_amended rfl rfl (reach_drainSeed web2 uj0 P2)

/-! C3: failure capture in `LinkTask.run`. -/

/-- C3: a timeout is recorded as the distinct `timeout` classification, any
other network failure as a generic error carrying its message, and in both
failure cases the discovered-links sequence is left empty.  `linkTaskRun` is
a total function whose failures all land in the `exception` field, which
embeds the bare `except:` of the source: no exception escapes `run()`. -/
theorem c3_failure_capture (uj : String → String → String) (link : String)
    (g : Bool) (m : String) :
    linkTaskRun uj link g HttpResult.timeout
        = ⟨none, [], some TaskExc.timeout⟩
  ∧ linkTaskRun uj link g (HttpResult.netError m)
        = ⟨none, [], some (TaskExc.error m)⟩
  ∧ TaskExc.timeout ≠ TaskExc.error m :=
  ⟨rfl, rfl, by simp⟩

/-! C5: link-extraction gating. -/

/-- C5 (amended): if extraction was not requested, or the status code is at
least 400, or the content type is not HTML/XHTML, the task produces no
links; otherwise, provided every image tag carries a `src` attribute, it
collects every anchor href and image src target resolved against the task's
own URL.  (Without that proviso the collection is cut short by the `KeyError`
on the first `src`-less image — see the counterexample and C10.) -/
theorem c5_extraction_gating_amended (uj : String → String → String)
    (link : String) (g : Bool) (resp : Response) :
    ((g = false ∨ 400 ≤ resp.status
        ∨ isFollowableContentType resp.contentType = false) →
      (linkTaskRun uj link g (.ok resp)).links = [])
  ∧ (g = true → resp.status < 400 →
      isFollowableContentType resp.contentType = true →
      none ∉ resp.imgs →
      (linkTaskRun uj link g (.ok resp)).links
        = specExtractedLinks uj link resp) := by
  constructor
  · intro hcond
    rcases hcond with hg | hs | hc
    · simp [linkTaskRun, hg]
    · by_cases hg : g = false <;> simp [linkTaskRun, hg, hs]
    · by_cases hg : g = false
      · simp [linkTaskRun, hg]
      · by_cases hs : 400 ≤ resp.status <;> simp [linkTaskRun, hg, hs, hc]
  · intro hg hs hc himg
    have hs' : ¬ 400 ≤ resp.status := by omega
    simp [linkTaskRun, hg, hs', hc,
      collectImgSrcs_all_some uj link resp.imgs himg, specExtractedLinks]

/-- C5 counterexample: on a page whose images are `src="y"`, then one image
with no `src`, then `src="z"`, the task does not collect every image target:
`z` is lost to the `KeyError`, so the produced links differ from the spec's
collection. -/
theorem c5_extraction_gating_counterexample :
    (linkTaskRun uj0 "http://a/" true
        (.ok ⟨200, "text/html", [some "x"], [some "y", none, some "z"]⟩)).links
      ≠ specExtractedLinks uj0 "http://a/"
          ⟨200, "text/html", [some "x"], [some "y", none, some "z"]⟩ := by
  decide

/-- Witness for C5 (amended): the gated case and the full-collection case at
concrete inputs. -/
theorem c5_extraction_gating_amended_witness :
    (linkTaskRun uj0 "u" false (.ok ⟨200, "text/html", [some "x"], []⟩)).links = []
  ∧ (linkTaskRun uj0 "u" true (.ok ⟨200, "text/html", [some "x"], [some "y"]⟩)).links
      = specExtractedLinks uj0 "u" ⟨200, "text/html", [some "x"], [some "y"]⟩ :=
  ⟨(c5_extraction_gating_amended uj0 "u" false
      ⟨200, "text/html", [some "x"], []⟩).1 (Or.inl rfl),
   (c5_extraction_gating_amended uj0 "u" true
      ⟨200, "text/html", [some "x"], [some "y"]⟩).2 rfl (by decide) (by decide)
      (by decide)⟩

/-! C6: status filtering and output format. -/

/-- Admitting a link writes no output. -/
theorem processLink_outLines (P : Params) (n : String) (b : DState)
    (a : String) : (processLink P n b a).outLines = b.outLines := by
  rcases processLink_spec P n b a with ⟨_, he⟩ | ⟨_, he⟩ | ⟨_, _, _, he⟩ <;>
    rw [he]

/-- Folding the admission step over any link list writes no output. -/
theorem foldl_processLink_outLines (P : Params) (n : String)
    (l : List String) (b : DState) :
    (l.foldl (processLink P n) b).outLines = b.outLines := by
  induction l generalizing b with
  | nil => rfl
  | cons a l ih => rw [List.foldl_cons, ih, processLink_outLines]

/-- C6: for a completed (non-failed) task with recorded status code `c`, a
stdout line is appended exactly when the print-all flag is set or `c ≥ 400`,
and the line is `"<statusCode>: <url>"`. -/
theorem c6_status_filtering {web : String → HttpResult}
    {uj : String → String → String} {P : Params} {n : String} {s : DState}
    {t : Task} {c : Nat}
    (hX : (taskResult web uj t).exception = none)
    (hst : (taskResult web uj t).status = some c) :
    (processTask web uj P n s t).outLines
      = s.outLines ++ (if P.print_all ∨ 400 ≤ c then [outLine c t.link] else [])
  ∧ outLine c t.link = toString c ++ ": " ++ t.link := by
  refine ⟨?_, rfl⟩
  rw [processTask_ok hX, foldl_processLink_outLines, hst]
  simp only [Option.getD_some]
  split_ifs <;> simp

/-- Witness for C6: a 404 task with print-all unset emits exactly its
status line. -/
theorem c6_status_filtering_witness :
    ((processTask web6 uj0 P6 (urlNetloc P6.url) (initState P6)
        (seedTask P6)).outLines
      = (initState P6).outLines
        ++ (if P6.print_all ∨ 400 ≤ 404 then [outLine 404 (seedTask P6).link]
            else []))
  ∧ outLine 404 (seedTask P6).link = toString 404 ++ ": " ++ (seedTask P6).link :=
  c6_status_filtering (by decide) (by decide)

/-! C7: exit-status semantics. -/

/-- Admitting a link changes neither the exit status nor the drained list. -/
theorem processLink_exit (P : Params) (n : String) (b : DState) (a : String) :
    (processLink P n b a).exitStatus = b.exitStatus
  ∧ (processLink P n b a).processed = b.processed := by
  rcases processLink_spec P n b a with ⟨_, he⟩ | ⟨_, he⟩ | ⟨_, _, _, he⟩ <;>
    rw [he] <;> exact ⟨rfl, rfl⟩

/-- The exit status is 1 exactly when some drained task captured an
exception. -/
theorem reach_exit {web : String → HttpResult} {uj : String → String → String}
    {P : Params} {s : DState} (h : Reach web uj P s) :
    s.exitStatus
      = cond (s.processed.any fun t => ((taskResult web uj t).exception).isSome)
          1 0 := by
  refine reach_inv (I := fun s : DState =>
      s.exitStatus
        = cond (s.processed.any fun t => ((taskResult web uj t).exception).isSome)
            1 0) ?_ ?_ h
  · simp [initState]
  · intro s s' hst hi
    cases hst with
    | drain t ht =>
        cases hX : (taskResult web uj t).exception with
        | some e =>
            rw [processTask_exc hX]
            simp [List.any_append, hX]
        | none =>
            rw [processTask_ok hX]
            refine foldl_inv (I := fun st : DState =>
                st.exitStatus
                  = cond (st.processed.any fun u =>
                      ((taskResult web uj u).exception).isSome) 1 0)
              (fun b a hb => by
                simp only [(processLink_exit P (urlNetloc P.url) b a).1,
                  (processLink_exit P (urlNetloc P.url) b a).2]
                exact hb) _ _ ?_
            split_ifs <;> simpa [List.any_append, hX] using hi

/-- C7 (amended): the process exit status is 1 exactly when some drained
task captured an exception — a network error, a timeout, or a parse-time
error — and 0 exactly when no drained task captured any exception; in
particular an HTTP status code of 400 or more alone, without an exception,
never sets the exit status to failure.  (The original claim — exit 0
whenever no task failed with a network/timeout error — fails on a
parse-time `KeyError`: see the counterexample.) -/
theorem c7_exit_status_amended {web : String → HttpResult}
    {uj : String → String → String} {P : Params} {s : DState}
    (h : Reach web uj P s) :
    (s.exitStatus = 1
        ↔ ∃ t ∈ s.processed, ((taskResult web uj t).exception).isSome = true)
  ∧ (s.exitStatus = 0
        ↔ ∀ t ∈ s.processed, (taskResult web uj t).exception = none) := by
  have key := reach_exit h
  have conv : ∀ o : Option TaskExc, o.isSome = false ↔ o = none := by
    intro o
    cases o <;> simp
  cases hA : s.processed.any fun t => ((taskResult web uj t).exception).isSome with
  | true =>
      rw [hA] at key
      simp only [cond_true] at key
      obtain ⟨t, ht, hsome⟩ := List.any_eq_true.mp hA
      refine ⟨⟨fun _ => ⟨t, ht, hsome⟩, fun _ => key⟩, ?_, ?_⟩
      · intro h0
        rw [key] at h0
        exact absurd h0 one_ne_zero
      · intro hall
        have := (conv _).mpr (hall t ht)
        rw [this] at hsome
        exact absurd hsome (by simp)
  | false =>
      rw [hA] at key
      simp only [cond_false] at key
      have hall := List.any_eq_false.mp hA
      refine ⟨⟨fun h1 => ?_, fun he => ?_⟩, fun _ => ?_, fun _ => key⟩
      · rw [key] at h1
        exact absurd h1 zero_ne_one
      · obtain ⟨t, ht, hsome⟩ := he
        exact absurd hsome (hall t ht)
      · intro t ht
        exact (conv _).mp (Bool.eq_false_iff.mpr (hall t ht))

/-- C7 counterexample: a finished run (no task in flight) in which no task
failed with a network or timeout error — the sole failure is the parse-time
`KeyError` on a `src`-less image — still exits with status 1. -/
theorem c7_exit_status_counterexample :
    ∃ s : DState, Reach web7 uj0 P7 s
      ∧ s.inflight = []
      ∧ (∀ t ∈ s.processed, isNetFailureB (taskResult web7 uj0 t).exception = false)
      ∧ s.exitStatus = 1 :=
  ⟨drainSeed web7 uj0 P7, reach_drainSeed web7 uj0 P7, by decide, by decide,
    by decide⟩

/-- Witness for C7 (amended) at a concrete reachable state whose single
drained task captured an exception. -/
theorem c7_exit_status_amended_witness :
    ((drainSeed web7 uj0 P7).exitStatus = 1
        ↔ ∃ t ∈ (drainSeed web7 uj0 P7).processed,
            ((taskResult web7 uj0 t).exception).isSome = true)
  ∧ ((drainSeed web7 uj0 P7).exitStatus = 0
        ↔ ∀ t ∈ (drainSeed web7 uj0 P7).processed,
            (taskResult web7 uj0 t).exception = none) :=
  c7_exit_status_amended (reach_drainSeed web7 uj0 P7)

/-! C8: the should-follow flag of admitted tasks. -/

/-- Admission preserves the flag characterization of submitted tasks. -/
theorem processLink_flag {P : Params} {n : String} (b : DState) (a : String)
    (hb : ∀ t ∈ b.submitted, t = seedTask P
        ∨ (t.get_links = true
            ↔ ((urlNetloc t.link = n ∧ P.internal = "follow")
                ∨ (¬(urlNetloc t.link = n) ∧ P.external = "follow")))) :
    ∀ t ∈ (processLink P n b a).submitted, t = seedTask P
        ∨ (t.get_links = true
            ↔ ((urlNetloc t.link = n ∧ P.internal = "follow")
                ∨ (¬(urlNetloc t.link = n) ∧ P.external = "follow"))) := by
  rcases processLink_spec P n b a with ⟨_, he⟩ | ⟨_, he⟩ | ⟨_, _, _, he⟩
  · rw [he]; exact hb
  · rw [he]; exact hb
  · rw [he]
    intro t ht
    rcases List.mem_append.mp ht with h | h
    · exact hb t h
    · simp only [List.mem_singleton] at h
      right
      rw [h]
      by_cases hn : urlNetloc (urldefrag a) = n <;>
        simp [newG, hn, beq_iff_eq]

/-- C8: the seed task always has link extraction enabled regardless of
policy, and every other submitted task has its flag set exactly when the
link is internal with internal policy follow, or external with external
policy follow. -/
theorem c8_should_follow {web : String → HttpResult}
    {uj : String → String → String} {P : Params} {s : DState}
    (h : Reach web uj P s) :
    (seedTask P).get_links = true
  ∧ ∀ t ∈ s.submitted, t = seedTask P
      ∨ (t.get_links = true
          ↔ ((urlNetloc t.link = urlNetloc P.url ∧ P.internal = "follow")
              ∨ (¬(urlNetloc t.link = urlNetloc P.url)
                  ∧ P.external = "follow"))) := by
  refine ⟨rfl, ?_⟩
  refine reach_inv (I := fun s : DState =>
      ∀ t ∈ s.submitted, t = seedTask P
        ∨ (t.get_links = true
            ↔ ((urlNetloc t.link = urlNetloc P.url ∧ P.internal = "follow")
                ∨ (¬(urlNetloc t.link = urlNetloc P.url)
                    ∧ P.external = "follow")))) ?_ ?_ h
  · intro t ht
    simp only [initState, List.mem_singleton] at ht
    exact Or.inl ht
  · intro s s' hst hi
    cases hst with
    | drain t ht =>
        cases hX : (taskResult web uj t).exception with
        | some e =>
            rw [processTask_exc hX]
            exact hi
        | none =>
            rw [processTask_ok hX]
            refine foldl_inv (fun b a hb => processLink_flag b a hb) _ _ ?_
            split_ifs <;> exact hi

/-- Witness for C8 at a concrete reachable state with one admitted link. -/
theorem c8_should_follow_witness :
    (seedTask P2).get_links = true
  ∧ ∀ t ∈ (drainSeed web2 uj0 P2).submitted, t = seedTask P2
      ∨ (t.get_links = true
          ↔ ((urlNetloc t.link = urlNetloc P2.url ∧ P2.internal = "follow")
              ∨ (¬(urlNetloc t.link = urlNetloc P2.url)
                  ∧ P2.external = "follow"))) :=
  c8_should_follow (reach_drainSeed web2 uj0 P2)

/-! C9: failure of the seed fetch. -/

/-- When the seed fetch captures an exception, the run has exactly two
states: the initial one and the one after draining the failed seed task. -/
theorem reach_seed_failed {web : String → HttpResult}
    {uj : String → String → String} {P : Params} {e : TaskExc}
    (hE : (taskResult web uj (seedTask P)).exception = some e) :
    ∀ {s : DState}, Reach web uj P s →
      s = initState P ∨ s = drainSeed web uj P := by
  intro s h
  induction h with
  | init => exact Or.inl rfl
  | step hr hst ih =>
      cases hst with
      | drain t ht =>
          rcases ih with h0 | h0
          · rw [h0] at ht
            have htt : t = seedTask P := by simpa [initState] using ht
            rw [h0, htt]
            exact Or.inr rfl
          · exfalso
            have hempty : (drainSeed web uj P).inflight = [] := by
              unfold drainSeed
              rw [processTask_exc hE]
              simp [initState]
            rw [h0, hempty] at ht
            exact absurd ht (List.not_mem_nil t)

/-- C9 (amended): when the seed URL cannot be fetched, the failed seed task
is drained and reported through the ordinary per-task failure path — the
run's only submitted task stays the seed, and after the single loop
iteration nothing is in flight, exactly the seed was processed, the exit
status is 1, and the stderr report is the standard per-task failure line.
(The original claim — the run aborts with no tasks processed, through a
distinct fatal startup error — fails: the seed failure is processed as one
ordinary task failure; see the counterexample.) -/
theorem c9_startup_failure_amended {web : String → HttpResult}
    {uj : String → String → String} {P : Params} {s : DState} {e : TaskExc}
    (hE : (taskResult web uj (seedTask P)).exception = some e)
    (h : Reach web uj P s) :
    s.submitted = [seedTask P]
  ∧ (s = initState P
      ∨ (s.inflight = [] ∧ s.processed = [seedTask P] ∧ s.exitStatus = 1
          ∧ s.errLines = [errLine P.url e])) := by
  rcases reach_seed_failed hE h with h0 | h0 <;> rw [h0]
  · exact ⟨rfl, Or.inl rfl⟩
  · refine ⟨?_, Or.inr ⟨?_, ?_, ?_, ?_⟩⟩
    all_goals unfold drainSeed
    all_goals rw [processTask_exc hE]
    all_goals try simp [initState, seedTask]

/-- C9 counterexample: with a seed that cannot be fetched, the terminal run
state has processed exactly one task — the failed seed — and reports it via
the generic per-task error line, contradicting "no tasks processed". -/
theorem c9_startup_failure_counterexample :
    web9 P9.url = HttpResult.netError "connection refused"
  ∧ ∃ s : DState, Reach web9 uj0 P9 s ∧ s.inflight = []
      ∧ s.processed ≠ []
      ∧ s.processed = [seedTask P9]
      ∧ s.errLines = [errLine P9.url (TaskExc.error "connection refused")] :=
  ⟨rfl, drainSeed web9 uj0 P9, reach_drainSeed web9 uj0 P9, by decide,
    by decide, by decide, by decide⟩

/-- Witness for C9 (amended) at the terminal state of the failed run. -/
theorem c9_startup_failure_amended_witness :
    (drainSeed web9 uj0 P9).submitted = [seedTask P9]
  ∧ (drainSeed web9 uj0 P9 = initState P9
      ∨ ((drainSeed web9 uj0 P9).inflight = []
          ∧ (drainSeed web9 uj0 P9).processed = [seedTask P9]
          ∧ (drainSeed web9 uj0 P9).exitStatus = 1
          ∧ (drainSeed web9 uj0 P9).errLines
              = [errLine P9.url (TaskExc.error "connection refused")])) :=
  c9_startup_failure_amended
    (show (taskResult web9 uj0 (seedTask P9)).exception
        = some (TaskExc.error "connection refused") from rfl)
    (reach_drainSeed web9 uj0 P9)

/-! C10: the KeyError on an image without src. -/

/-- C10: on a successfully fetched HTML page whose body contains an image
tag without a `src` attribute, task execution captures the `KeyError` as the
task's exception even though the status code was recorded; the driver then
reports the task as failed on stderr, sets the exit status to 1, and — the
task being treated as failed — admits none of its collected links: no new
task, cache entry or stdout line is produced from it. -/
theorem c10_img_keyerror {web : String → HttpResult}
    {uj : String → String → String} {P : Params} {n : String} {s : DState}
    {t : Task} {resp : Response}
    (hw : web t.link = .ok resp) (hg : t.get_links = true)
    (hst : resp.status < 400)
    (hct : isFollowableContentType resp.contentType = true)
    (himg : none ∈ resp.imgs) :
    (taskResult web uj t).exception = some TaskExc.keyError
  ∧ (taskResult web uj t).status = some resp.status
  ∧ (processTask web uj P n s t).exitStatus = 1
  ∧ (processTask web uj P n s t).submitted = s.submitted
  ∧ (processTask web uj P n s t).cache = s.cache
  ∧ (processTask web uj P n s t).outLines = s.outLines
  ∧ (processTask web uj P n s t).errLines
      = s.errLines ++ [errLine t.link TaskExc.keyError] := by
  have hkey : (collectImgSrcs uj t.link resp.imgs).2 = true :=
    (collectImgSrcs_snd uj t.link resp.imgs).mpr himg
  have hs' : ¬ 400 ≤ resp.status := by omega
  have hexc : (taskResult web uj t).exception = some TaskExc.keyError := by
    rw [taskResult, hw, hg]
    simp [linkTaskRun, hs', hct, hkey]
  have hstat : (taskResult web uj t).status = some resp.status := by
    rw [taskResult, hw, hg]
    simp [linkTaskRun, hs', hct]
  rw [processTask_exc hexc]
  exact ⟨hexc, hstat, rfl, rfl, rfl, rfl, rfl⟩

/-- Witness for C10: the concrete run whose seed page is HTML with a single
`src`-less image. -/
theorem c10_img_keyerror_witness :
    (taskResult web7 uj0 (seedTask P7)).exception = some TaskExc.keyError
  ∧ (taskResult web7 uj0 (seedTask P7)).status = some 200
  ∧ (processTask web7 uj0 P7 (urlNetloc P7.url) (initState P7)
        (seedTask P7)).exitStatus = 1
  ∧ (processTask web7 uj0 P7 (urlNetloc P7.url) (initState P7)
        (seedTask P7)).submitted = (initState P7).submitted
  ∧ (processTask web7 uj0 P7 (urlNetloc P7.url) (initState P7)
        (seedTask P7)).cache = (initState P7).cache
  ∧ (processTask web7 uj0 P7 (urlNetloc P7.url) (initState P7)
        (seedTask P7)).outLines = (initState P7).outLines
  ∧ (processTask web7 uj0 P7 (urlNetloc P7.url) (initState P7)
        (seedTask P7)).errLines
      = (initState P7).errLines ++ [errLine (seedTask P7).link TaskExc.keyError] :=
  c10_img_keyerror rfl rfl (by decide) (by decide) (by decide)

end FourOhFour
